import Mathlib

/-!
Verification of the Kubewarden admission-controller prototype
(plugin/pkg/admission/security/kubewarden).

The development embeds, as executable Lean functions:
  * the JSON wire protocol (`NewValidationResponse`,
    `NewSettingsValidationResponse` over a JSON model mirroring Go
    `encoding/json` unmarshalling into the two response structs);
  * the decision aggregator (`Plugin.Validate`), the settings validation
    pass (`Plugin.ValidateInitialization`) and plugin construction
    (`newPluginPolicies`);
  * the OCI artifact fetcher (`DownloadWasmFromRegistry`,
    `buildDownloadDestination`).

External library calls (webhook matching, admission-object construction,
the wasm runtime, the OCI registry client, the filesystem) are modelled as
oracles: records of outcomes, quantified over in the theorems.
-/

namespace Kubewarden

/-! ## JSON model

Models the subset of JSON relevant to the wire protocol, mirroring Go
`encoding/json`.  Restriction documented here once: JSON numbers are
modelled as integers (no fraction/exponent part); none of the protocol
fields nor any claim involves fractional numbers. -/

inductive Json where
  | null
  | bool (b : Bool)
  | num (n : Int)
  | str (s : String)
  | arr (elems : List Json)
  | obj (members : List (String × Json))

def isWs (c : Char) : Bool :=
  c = ' ' || c = '\n' || c = '\t' || c = '\r'

def skipWs : List Char → List Char
  | [] => []
  | c :: cs => if isWs c then skipWs cs else c :: cs

/-- Parse the body of a JSON string literal (the opening quote already
consumed); returns the decoded characters and the input after the closing
quote.  Supported escapes: the common single-character ones. -/
def parseStringBody : List Char → Option (List Char × List Char)
  | [] => none
  | c :: cs =>
    if c = '\x22' then some ([], cs)
    else if c = '\\' then
      match cs with
      | [] => none
      | e :: cs2 =>
        let ec : Option Char :=
          if e = '\x22' then some '\x22'
          else if e = '\\' then some '\\'
          else if e = '/' then some '/'
          else if e = 'n' then some '\n'
          else if e = 't' then some '\t'
          else if e = 'r' then some '\r'
          else none
        match ec with
        | none => none
        | some d =>
          match parseStringBody cs2 with
          | none => none
          | some (s, rest) => some (d :: s, rest)
    else
      match parseStringBody cs with
      | none => none
      | some (s, rest) => some (c :: s, rest)

def digitsToNat : List Char → Nat → Nat
  | [], acc => acc
  | c :: cs, acc => digitsToNat cs (acc * 10 + (c.toNat - '0'.toNat))

/-- Parse a run of at least one decimal digit. -/
def parseDigits (cs : List Char) : Option (Nat × List Char) :=
  let ds := cs.takeWhile Char.isDigit
  if ds.isEmpty then none else some (digitsToNat ds 0, cs.dropWhile Char.isDigit)

def expectLit : List Char → List Char → Option (List Char)
  | [], rest => some rest
  | l :: ls, c :: cs => if c = l then expectLit ls cs else none
  | _ :: _, [] => none

mutual

def parseVal (fuel : Nat) (cs : List Char) : Option (Json × List Char) :=
  match fuel with
  | 0 => none
  | fuel + 1 =>
    match skipWs cs with
    | [] => none
    | c :: rest =>
      if c = 'n' then
        (expectLit ['u', 'l', 'l'] rest).map (fun r => (Json.null, r))
      else if c = 't' then
        (expectLit ['r', 'u', 'e'] rest).map (fun r => (Json.bool true, r))
      else if c = 'f' then
        (expectLit ['a', 'l', 's', 'e'] rest).map (fun r => (Json.bool false, r))
      else if c = '\x22' then
        (parseStringBody rest).map (fun p => (Json.str (String.mk p.1), p.2))
      else if c = '-' then
        (parseDigits rest).map (fun p => (Json.num (-(p.1 : Int)), p.2))
      else if c.isDigit then
        (parseDigits (c :: rest)).map (fun p => (Json.num (p.1 : Int), p.2))
      else if c = '\x5b' then
        parseArr fuel rest
      else if c = '\x7b' then
        parseObj fuel rest
      else none

def parseArr (fuel : Nat) (cs : List Char) : Option (Json × List Char) :=
  match fuel with
  | 0 => none
  | fuel + 1 =>
    match skipWs cs with
    | ']' :: rest => some (Json.arr [], rest)
    | cs2 =>
      match parseVal fuel cs2 with
      | none => none
      | some (v, rest) =>
        match parseArrTail fuel rest with
        | none => none
        | some (vs, rest2) => some (Json.arr (v :: vs), rest2)

def parseArrTail (fuel : Nat) (cs : List Char) : Option (List Json × List Char) :=
  match fuel with
  | 0 => none
  | fuel + 1 =>
    match skipWs cs with
    | ']' :: rest => some ([], rest)
    | ',' :: rest =>
      match parseVal fuel rest with
      | none => none
      | some (v, rest2) =>
        match parseArrTail fuel rest2 with
        | none => none
        | some (vs, rest3) => some (v :: vs, rest3)
    | _ => none

def parseObj (fuel : Nat) (cs : List Char) : Option (Json × List Char) :=
  match fuel with
  | 0 => none
  | fuel + 1 =>
    match skipWs cs with
    | '\x7d' :: rest => some (Json.obj [], rest)
    | cs2 =>
      match parseMember fuel cs2 with
      | none => none
      | some (m, rest) =>
        match parseObjTail fuel rest with
        | none => none
        | some (ms, rest2) => some (Json.obj (m :: ms), rest2)

def parseMember (fuel : Nat) (cs : List Char) : Option ((String × Json) × List Char) :=
  match fuel with
  | 0 => none
  | fuel + 1 =>
    match skipWs cs with
    | '\x22' :: rest =>
      match parseStringBody rest with
      | none => none
      | some (k, rest2) =>
        match skipWs rest2 with
        | ':' :: rest3 =>
          match parseVal fuel rest3 with
          | none => none
          | some (v, rest4) => some ((String.mk k, v), rest4)
        | _ => none
    | _ => none

def parseObjTail (fuel : Nat) (cs : List Char) : Option (List (String × Json) × List Char) :=
  match fuel with
  | 0 => none
  | fuel + 1 =>
    match skipWs cs with
    | '\x7d' :: rest => some ([], rest)
    | ',' :: rest =>
      match parseMember fuel rest with
      | none => none
      | some (m, rest2) =>
        match parseObjTail fuel rest2 with
        | none => none
        | some (ms, rest3) => some (m :: ms, rest3)
    | _ => none

end

/-- Parse a whole byte string as one JSON document (trailing whitespace
allowed, trailing garbage refused, as in Go `json.Unmarshal`). -/
def jsonParse (s : String) : Option Json :=
  match parseVal (s.length + 1) s.data with
  | none => none
  | some (j, rest) => if (skipWs rest).isEmpty then some j else none

/-! ## Wire protocol (kw_protocol_types.go)

`ValidationResponse` / `SettingsValidationResponse` and their decoders.
Go `json.Unmarshal` semantics for unmarshalling into a struct, as
modelled here: a JSON `null` document leaves the zero-valued struct and
reports no error; a JSON object is decoded member by member — unknown
keys are ignored, keys are matched to field tags up to ASCII case, a
`null` member value leaves the field unchanged, a member value of the
wrong type is an error; any other document shape is an error.  (Go keeps
decoding the remaining members after a type error and reports the first
error at the end; the model stops at the first bad member.  Both agree on
success/failure and, on success, on the decoded struct.) -/

/-- ASCII lower-casing of a JSON key, standing in for the case-folding Go
uses to match JSON keys against struct field tags (the tags here are all
ASCII). -/
def asciiLowerChar (c : Char) : Char :=
  if 'A' ≤ c && c ≤ 'Z' then Char.ofNat (c.toNat + 32) else c

def lowerKey (s : String) : String :=
  String.mk (s.data.map asciiLowerChar)

structure ValidationResponse where
  Accepted : Bool
  Message : String
  Code : Int
  MutatedObject : String
deriving Repr, DecidableEq

def zeroVR : ValidationResponse := ⟨false, "", 0, ""⟩

/-- Decode one JSON object member into the `ValidationResponse` struct:
`none` is Go's `UnmarshalTypeError`. -/
def setVRField (vr : ValidationResponse) (k : String) (v : Json) :
    Option ValidationResponse :=
  let t := lowerKey k
  if t = "accepted" then
    match v with
    | Json.bool b => some { vr with Accepted := b }
    | Json.null => some vr
    | _ => none
  else if t = "message" then
    match v with
    | Json.str s => some { vr with Message := s }
    | Json.null => some vr
    | _ => none
  else if t = "code" then
    match v with
    | Json.num n => some { vr with Code := n }
    | Json.null => some vr
    | _ => none
  else if t = "mutated_object" then
    match v with
    | Json.str s => some { vr with MutatedObject := s }
    | Json.null => some vr
    | _ => none
  else some vr

def unmarshalVRMembers (vr : ValidationResponse) :
    List (String × Json) → Option ValidationResponse
  | [] => some vr
  | (k, v) :: rest =>
    match setVRField vr k v with
    | none => none
    | some vr2 => unmarshalVRMembers vr2 rest

def unmarshalVR (j : Json) : Except String ValidationResponse :=
  match j with
  | Json.null => Except.ok zeroVR
  | Json.obj ms =>
    match unmarshalVRMembers zeroVR ms with
    | some vr => Except.ok vr
    | none => Except.error "json: cannot unmarshal member into ValidationResponse field"
  | _ => Except.error "json: cannot unmarshal value into ValidationResponse"

/-- `NewValidationResponse` (kw_protocol_types.go): `json.Unmarshal` of the
raw module output into a `ValidationResponse`. -/
def NewValidationResponse (data : String) : Except String ValidationResponse :=
  match jsonParse data with
  | none => Except.error "invalid character: cannot parse JSON"
  | some j => unmarshalVR j

structure SettingsValidationResponse where
  Valid : Bool
  Message : String
deriving Repr, DecidableEq

def zeroSVR : SettingsValidationResponse := ⟨false, ""⟩

def setSVRField (svr : SettingsValidationResponse) (k : String) (v : Json) :
    Option SettingsValidationResponse :=
  let t := lowerKey k
  if t = "valid" then
    match v with
    | Json.bool b => some { svr with Valid := b }
    | Json.null => some svr
    | _ => none
  else if t = "message" then
    match v with
    | Json.str s => some { svr with Message := s }
    | Json.null => some svr
    | _ => none
  else some svr

def unmarshalSVRMembers (svr : SettingsValidationResponse) :
    List (String × Json) → Option SettingsValidationResponse
  | [] => some svr
  | (k, v) :: rest =>
    match setSVRField svr k v with
    | none => none
    | some svr2 => unmarshalSVRMembers svr2 rest

/-- `NewSettingsValidationResponse` (kw_protocol_types.go). -/
def NewSettingsValidationResponse (data : String) :
    Except String SettingsValidationResponse :=
  match jsonParse data with
  | none => Except.error "invalid character: cannot parse JSON"
  | some (Json.null) => Except.ok zeroSVR
  | some (Json.obj ms) =>
    match unmarshalSVRMembers zeroSVR ms with
    | some svr => Except.ok svr
    | none => Except.error "json: cannot unmarshal member into SettingsValidationResponse field"
  | some _ => Except.error "json: cannot unmarshal value into SettingsValidationResponse"

/-- Declarative characterization of the byte strings
`NewValidationResponse` accepts, used by the decode-characterization
theorem: the member is either unknown to the struct, `null`, or of the
field's type. -/
def vrMemberOk : String × Json → Bool
  | (k, v) =>
    let t := lowerKey k
    if t = "accepted" then
      match v with
      | Json.bool _ => true
      | Json.null => true
      | _ => false
    else if t = "message" then
      match v with
      | Json.str _ => true
      | Json.null => true
      | _ => false
    else if t = "code" then
      match v with
      | Json.num _ => true
      | Json.null => true
      | _ => false
    else if t = "mutated_object" then
      match v with
      | Json.str _ => true
      | Json.null => true
      | _ => false
    else true

def vrShapeOk : Json → Bool
  | Json.null => true
  | Json.obj ms => ms.all vrMemberOk
  | _ => false

/-! ## Admission plugin (admission.go, policy.go, settings.go)

`Plugin.Validate` is embedded from the event-recording iteration of the
plugin (the other iteration in the tree is identical except that it does
not record events); `Plugin.ValidateInitialization` from the iteration the
claims cite (no client-presence check precedes the loop there).

For one fixed admission request, every external call the plugin makes is
replaced by its recorded outcome:
  * `hookCheck` — the result of `p.Webhook.ShouldCallHook(policy.Hook, a, o)`;
  * `ReqEnv.newVersionedAttrs` — `generic.NewVersionedAttributes(a, kind, o)`;
  * `createObjects` — `webhookrequest.CreateAdmissionObjects` for this
    policy's invocation;
  * `objKind`/`objApiVersion` — the target kind and group/version read off
    the admission review;
  * `serialize` — the admission-review type switch plus `json.Marshal` of
    the kubewarden ValidationRequest (settings included), yielding the
    payload bytes or an error;
  * `invoke` — `p.instance.Invoke(ctx, "validate", payload)`;
  * `settingsJson` — `json.Marshal(p.Spec.Settings)`;
  * `invokeSettings` — `p.instance.Invoke(ctx, "validate_settings", s)`.
The decision, the sequence of wasm invocations and the recorded events
are returned explicitly so that the theorems can speak about them. -/

inductive PolicyMode where
  | protect
  | monitor
deriving Repr, DecidableEq

inductive HookCheck where
  | statusError (e : String)
  | noMatch
  | matched (kind : String)
deriving Repr, DecidableEq

/-- One registered policy together with the recorded outcomes of every
external call made on behalf of it for the fixed request under study. -/
structure PolicyRun where
  name : String
  mode : PolicyMode
  hookCheck : HookCheck
  createObjects : Except String Unit
  objKind : String
  objApiVersion : String
  serialize : Except String String
  invoke : String → Except String String
  settingsJson : Except String String
  invokeSettings : String → Except String String

structure ReqEnv where
  newVersionedAttrs : String → Except String Unit

inductive Decision where
  | allowed
  | statusError (e : String)
  | internalError (e : String)
  | forbidden (e : String)
deriving Repr, DecidableEq

/-- One `recorder.Eventf` call: the unstructured target object's
apiVersion and kind, the event reason, and the formatted message. -/
structure EventRec where
  apiVersion : String
  kind : String
  reason : String
  message : String
deriving Repr, DecidableEq

/-- `Policy.Validate` (policy.go): invoke the wasm export `validate`,
then decode the raw bytes with `NewValidationResponse`. -/
def policyValidate (p : PolicyRun) (req : String) : Except String ValidationResponse :=
  match p.invoke req with
  | Except.error e =>
    Except.error ("[policy " ++ p.name ++ "] - cannot decode validation response: " ++ e)
  | Except.ok data => NewValidationResponse data

/-- `Policy.ValidateSettings` (policy.go): marshal the settings, invoke
the wasm export `validate_settings`, decode. -/
def policyValidateSettings (p : PolicyRun) : Except String SettingsValidationResponse :=
  match p.settingsJson with
  | Except.error e =>
    Except.error ("[policy " ++ p.name ++ "] - cannot convert settings to JSON: " ++ e)
  | Except.ok s =>
    match p.invokeSettings s with
    | Except.error e =>
      Except.error ("[policy " ++ p.name ++ "] - settings validation failure: " ++ e)
    | Except.ok data => NewSettingsValidationResponse data

/-- The first loop of `Plugin.Validate`: collect the relevant policies in
registration order; a `ShouldCallHook` status error or a
`NewVersionedAttributes` failure (called once per distinct matched kind,
`versionedAttrs` acting as the cache) aborts with the corresponding
decision. -/
def gatherRelevant (env : ReqEnv) :
    List PolicyRun → List String → Except Decision (List PolicyRun)
  | [], _ => Except.ok []
  | p :: rest, seen =>
    match p.hookCheck with
    | HookCheck.statusError e => Except.error (Decision.statusError e)
    | HookCheck.noMatch => gatherRelevant env rest seen
    | HookCheck.matched kind =>
      if seen.contains kind then
        (gatherRelevant env rest seen).map (fun l => p :: l)
      else
        match env.newVersionedAttrs kind with
        | Except.error e => Except.error (Decision.internalError e)
        | Except.ok _ => (gatherRelevant env rest (kind :: seen)).map (fun l => p :: l)

/-- The second loop of `Plugin.Validate` over the relevant policies.
Besides the decision it returns the names of the policies whose wasm
module was actually invoked, in order, and the events recorded. -/
def evalRelevant : List PolicyRun → Decision × List String × List EventRec
  | [] => (Decision.allowed, [], [])
  | p :: rest =>
    match p.createObjects with
    | Except.error e => (Decision.internalError e, [], [])
    | Except.ok _ =>
      match p.serialize with
      | Except.error e =>
        (Decision.forbidden ("Cannot serialize kubewarden ValidationRequest: " ++ e), [], [])
      | Except.ok payload =>
        match policyValidate p payload with
        | Except.error e =>
          (Decision.forbidden ("Error evaluating Wasm policy " ++ p.name ++ ": " ++ e),
           [p.name], [])
        | Except.ok vr =>
          if vr.Accepted then
            let r := evalRelevant rest
            (r.1, p.name :: r.2.1, r.2.2)
          else
            (Decision.forbidden
               ("Kubewarden policy " ++ p.name ++ " rejection: " ++ vr.Message),
             [p.name],
             [{ apiVersion := p.objApiVersion, kind := p.objKind,
                reason := "ValidationRejection",
                message := p.name ++ ": " ++ vr.Message }])

structure Plugin where
  policies : List PolicyRun

/-- `Plugin.Validate` (admission.go): gather the relevant policies, then
evaluate them in order.  (The source's early `return nil` on an empty
relevant set coincides with evaluating the empty list.) -/
def Plugin.Validate (p : Plugin) (env : ReqEnv) : Decision × List String × List EventRec :=
  match gatherRelevant env p.policies [] with
  | Except.error d => (d, [], [])
  | Except.ok relevant => evalRelevant relevant

/-- Whether one policy contributes a failure entry to
`ValidateInitialization`'s list: its settings validation errored, or
decoded to `valid = false`. -/
def settingsFailure (p : PolicyRun) : Bool :=
  match policyValidateSettings p with
  | Except.error _ => true
  | Except.ok vsr => !vsr.Valid

/-- One iteration of `ValidateInitialization`'s loop: append the failure
message if this policy's settings validation errored or reported invalid,
and record that the policy was validated. -/
def vInitStep (acc : List String × List String) (q : PolicyRun) :
    List String × List String :=
  let errs :=
    match policyValidateSettings q with
    | Except.error e => acc.1 ++ [e]
    | Except.ok vsr =>
      if !vsr.Valid then
        acc.1 ++ ["Settings for policy " ++ q.name ++ " are not valid: " ++ vsr.Message]
      else acc.1
  (errs, acc.2 ++ [q.name])

/-- `Plugin.ValidateInitialization` (admission.go): run every policy's
settings validation, collecting the failure messages; error iff the list
is nonempty.  Returns also the names of the policies whose settings
validation was run, in order (one entry per registered policy). -/
def Plugin.ValidateInitialization (p : Plugin) : Option String × List String :=
  let r := p.policies.foldl vInitStep ([], [])
  (if r.1.length > 0 then some "KUBEWARDEN: policies configuration is wrong" else none,
   r.2)

/-- `newPlugin` (admission.go), policy construction only: build the
`policies` slice by ranging over the configured policies map.  Go leaves
the range order of a map unspecified, so the model takes the delivered
iteration sequence — some permutation of the map's entries — as input.
`mkPolicy` stands for `NewPolicy` (download, instantiate, build hook),
which may fail; the first failure aborts construction. -/
def newPluginPolicies {α : Type} (mkPolicy : String → α → Except String PolicyRun) :
    List (String × α) → Except String (List PolicyRun)
  | [] => Except.ok []
  | (name, spec) :: rest =>
    match mkPolicy name spec with
    | Except.error e => Except.error ("Cannot init Wasm policy " ++ name ++ ": " ++ e)
    | Except.ok policy => (newPluginPolicies mkPolicy rest).map (fun l => policy :: l)

/-! ## Artifact fetcher (download.go)

`buildDownloadDestination` and `DownloadWasmFromRegistry`, for the Linux
platform (`os.PathSeparator` is `/`).  The filesystem is an association
list path ↦ content (`os.Stat` succeeds iff the path is a key;
`os.WriteFile` conses a new binding).  The registry interactions are the
recorded outcomes in `DownloadEnv`.  The third component of the result
records whether `oras.Copy` — the network access — was reached. -/

def pathSeparator : String := "/"

/-- `strings.ReplaceAll` for a single-character pattern, which is how the
source uses it (`"/"` ↦ the platform separator). -/
def replaceAllChar (s : String) (old : Char) (new : String) : String :=
  String.mk (s.data.foldr (fun c acc => if c = old then new.data ++ acc else c :: acc) [])

def splitOnChar (c : Char) : List Char → List (List Char)
  | [] => [[]]
  | d :: ds =>
    let r := splitOnChar c ds
    if d = c then [] :: r
    else
      match r with
      | [] => [[d]]
      | g :: gs => (d :: g) :: gs

def joinSep (sep : String) : List String → String
  | [] => ""
  | [x] => x
  | x :: y :: xs => x ++ sep ++ joinSep sep (y :: xs)

/-- `path/filepath.Clean` for separator `/`: drop empty and `.`
components, resolve `..`, keep rootedness. -/
def pathClean (p : String) : String :=
  if p = "" then "."
  else
    let rooted := p.data.head? = some '/'
    let comps := ((splitOnChar '/' p.data).map String.mk).filter
      (fun c => c ≠ "" && c ≠ ".")
    let out := (comps.foldl
      (fun (acc : List String) c =>
        if c = ".." then
          match acc with
          | [] => if rooted then [] else [".."]
          | a :: rest => if a = ".." then c :: acc else rest
        else c :: acc) []).reverse
    let s := joinSep "/" out
    if rooted then "/" ++ s
    else if s = "" then "." else s

/-- `path/filepath.Join` of two elements: skip empty leading elements,
join with the separator, `Clean`. -/
def filepathJoin (dir p : String) : String :=
  if dir = "" then
    if p = "" then "" else pathClean p
  else pathClean (dir ++ "/" ++ p)

/-- The directory part of `path/filepath.Split`: everything up to and
including the final separator. -/
def filepathSplitDir (p : String) : String :=
  String.mk (p.data.reverse.dropWhile (fun c => c ≠ '/')).reverse

/-- `buildDownloadDestination` (download.go). -/
def buildDownloadDestination (ref destDir : String) : String :=
  let path := replaceAllChar ref '/' pathSeparator
  let path2 := path ++ ".wasm"
  filepathJoin destDir path2

/-- An OCI image manifest reduced to what the fetcher reads: the digest
strings of its layers. -/
structure Manifest where
  layers : List String
deriving Repr, DecidableEq

/-- Recorded outcomes of the registry/filesystem calls
`DownloadWasmFromRegistry` makes. -/
structure DownloadEnv where
  newRegistry : Except String Unit
  copy : String → Except String String
  storeGet : String → Option String
  parseManifest : String → Except String Manifest
  getByName : String → Option String
  mkdirAll : String → Except String Unit
  writeFile : String → String → Except String Unit

/-- `DownloadWasmFromRegistry` (download.go).  Returns the result, the
filesystem after the call, and whether `oras.Copy` was reached. -/
def DownloadWasmFromRegistry (env : DownloadEnv) (ref destDir : String)
    (fs : List (String × String)) :
    Except String String × List (String × String) × Bool :=
  let dest := buildDownloadDestination ref destDir
  if (fs.lookup dest).isSome then (Except.ok dest, fs, false)
  else
    match env.newRegistry with
    | Except.error e => (Except.error e, fs, false)
    | Except.ok _ =>
      match env.copy ref with
      | Except.error e => (Except.error e, fs, true)
      | Except.ok desc =>
        match env.storeGet desc with
        | none => (Except.error "Cannot fetch manifest", fs, true)
        | some content =>
          match env.parseManifest content with
          | Except.error e => (Except.error e, fs, true)
          | Except.ok manifest =>
            if manifest.layers.length ≠ 1 then
              (Except.error
                 ("OCI artifact is expected to have just one layer, found "
                   ++ toString manifest.layers.length ++ " layers instead"),
               fs, true)
            else
              match env.getByName (manifest.layers.headD "") with
              | none => (Except.error "Cannot find Wasm layer data", fs, true)
              | some layerContent =>
                match env.mkdirAll (filepathSplitDir dest) with
                | Except.error e => (Except.error e, fs, true)
                | Except.ok _ =>
                  match env.writeFile dest layerContent with
                  | Except.error e => (Except.error e, fs, true)
                  | Except.ok _ => (Except.ok dest, (dest, layerContent) :: fs, true)

/-! ## Helper notions and lemmas -/

/-- A policy whose evaluation runs to completion and accepts: admission
objects built, request serialized, module invoked and decoded with
`accepted = true`. -/
def policyAccepts (p : PolicyRun) : Prop :=
  p.createObjects = Except.ok () ∧
  ∃ payload, p.serialize = Except.ok payload ∧
    ∃ vr, policyValidate p payload = Except.ok vr ∧ vr.Accepted = true

def hookMatchesB (p : PolicyRun) : Bool :=
  match p.hookCheck with
  | HookCheck.matched _ => true
  | _ => false

theorem evalRelevant_accept_append (pre rest : List PolicyRun)
    (h : ∀ q ∈ pre, policyAccepts q) :
    evalRelevant (pre ++ rest) =
      ((evalRelevant rest).1,
       pre.map PolicyRun.name ++ (evalRelevant rest).2.1,
       (evalRelevant rest).2.2) := by
  induction pre with
  | nil => simp
  | cons p pre ih =>
    obtain ⟨h1, payload, h2, vr, h3, h4⟩ := h p (by simp)
    have hrest : ∀ q ∈ pre, policyAccepts q := fun q hq => h q (by simp [hq])
    simp only [List.cons_append, evalRelevant, h1, h2, h3, h4, if_true]
    simp [ih hrest]

theorem gatherRelevant_noMatch (env : ReqEnv) (ps : List PolicyRun)
    (h : ∀ q ∈ ps, q.hookCheck = HookCheck.noMatch) :
    ∀ seen, gatherRelevant env ps seen = Except.ok [] := by
  induction ps with
  | nil => intro seen; rfl
  | cons p ps ih =>
    intro seen
    have hp := h p (by simp)
    have hps : ∀ q ∈ ps, q.hookCheck = HookCheck.noMatch := fun q hq => h q (by simp [hq])
    simp only [gatherRelevant, hp, ih hps]

theorem gatherRelevant_ok_filter (env : ReqEnv) :
    ∀ (ps : List PolicyRun) (seen : List String) (rel : List PolicyRun),
      gatherRelevant env ps seen = Except.ok rel → rel = ps.filter hookMatchesB := by
  intro ps
  induction ps with
  | nil =>
    intro seen rel h
    simp only [gatherRelevant] at h
    cases h
    rfl
  | cons p ps ih =>
    intro seen rel h
    simp only [gatherRelevant] at h
    split at h
    · cases h
    · rename_i heq
      rw [List.filter_cons_of_neg (by simp [hookMatchesB, heq])]
      exact ih seen rel h
    · rename_i kind heq
      rw [List.filter_cons_of_pos (by simp [hookMatchesB, heq])]
      split at h
      · cases hrec : gatherRelevant env ps seen with
        | error d => rw [hrec] at h; cases h
        | ok l =>
          rw [hrec] at h
          simp only [Except.map] at h
          cases h
          rw [ih seen l hrec]
      · split at h
        · cases h
        · rename_i u heq2
          cases hrec : gatherRelevant env ps (kind :: seen) with
          | error d => rw [hrec] at h; cases h
          | ok l =>
            rw [hrec] at h
            simp only [Except.map] at h
            cases h
            rw [ih (kind :: seen) l hrec]

theorem evalRelevant_trace_prefix :
    ∀ rel : List PolicyRun,
      ∃ t, rel.map PolicyRun.name = (evalRelevant rel).2.1 ++ t := by
  intro rel
  induction rel with
  | nil => exact ⟨[], rfl⟩
  | cons p rest ih =>
    cases hco : p.createObjects with
    | error e => exact ⟨p.name :: rest.map PolicyRun.name, by simp [evalRelevant, hco]⟩
    | ok u =>
      cases hs : p.serialize with
      | error e => exact ⟨p.name :: rest.map PolicyRun.name, by simp [evalRelevant, hco, hs]⟩
      | ok payload =>
        cases hv : policyValidate p payload with
        | error e => exact ⟨rest.map PolicyRun.name, by simp [evalRelevant, hco, hs, hv]⟩
        | ok vr =>
          by_cases hacc : vr.Accepted
          · obtain ⟨t, ht⟩ := ih
            exact ⟨t, by simp [evalRelevant, hco, hs, hv, hacc, ht]⟩
          · exact ⟨rest.map PolicyRun.name, by simp [evalRelevant, hco, hs, hv, hacc]⟩

/-- Core of the first-rejection claims: with every earlier relevant policy
accepting and policy `p` decoding to `accepted = false`, the aggregator
stops at `p` with a forbidden decision and one rejection event. -/
theorem validateFirstRejectionAux
    (env : ReqEnv) (plugin : Plugin) (pre post : List PolicyRun) (p : PolicyRun)
    (hgather : gatherRelevant env plugin.policies [] = Except.ok (pre ++ p :: post))
    (hpre : ∀ q ∈ pre, policyAccepts q)
    (hobj : p.createObjects = Except.ok ())
    (payload : String) (hser : p.serialize = Except.ok payload)
    (vr : ValidationResponse) (hvr : policyValidate p payload = Except.ok vr)
    (hrej : vr.Accepted = false) :
    plugin.Validate env =
      (Decision.forbidden ("Kubewarden policy " ++ p.name ++ " rejection: " ++ vr.Message),
       pre.map PolicyRun.name ++ [p.name],
       [{ apiVersion := p.objApiVersion, kind := p.objKind,
          reason := "ValidationRejection", message := p.name ++ ": " ++ vr.Message }]) := by
  simp only [Plugin.Validate, hgather]
  rw [evalRelevant_accept_append pre (p :: post) hpre]
  simp only [evalRelevant, hobj, hser, hvr, hrej, if_false]
  simp

/-! ## Concrete scenarios for the witnesses and counterexamples -/

def wReqEnv : ReqEnv := ⟨fun _ => Except.ok ()⟩

/-- A policy matching kind `Pod` whose module returns the given raw
response bytes. -/
def wPolicy (nm resp : String) (m : PolicyMode) : PolicyRun :=
  { name := nm
    mode := m
    hookCheck := HookCheck.matched "Pod"
    createObjects := Except.ok ()
    objKind := "Pod"
    objApiVersion := "/v1"
    serialize := Except.ok "req"
    invoke := fun _ => Except.ok resp
    settingsJson := Except.ok "\x7b\x7d"
    invokeSettings := fun _ => Except.ok "\x7b\x22valid\x22:true\x7d" }

def wAcceptJson : String := "\x7b\x22accepted\x22:true\x7d"

def wRejectJson : String := "\x7b\x22accepted\x22:false,\x22message\x22:\x22denied\x22\x7d"

def wAccept : PolicyRun := wPolicy "p1" wAcceptJson PolicyMode.protect

def wReject : PolicyRun := wPolicy "p2" wRejectJson PolicyMode.protect

def wTail : PolicyRun := wPolicy "p3" wAcceptJson PolicyMode.protect

def wMon : PolicyRun := wPolicy "mon" wRejectJson PolicyMode.monitor

/-- A policy whose module invocation faults. -/
def wErr : PolicyRun :=
  { wPolicy "err" wAcceptJson PolicyMode.protect with
    invoke := fun _ => Except.error "trap" }

/-! ## Claims -/

/-- C1: for every request and every sequence of matched policies evaluated
in match order, if policy k is the first whose decoded ValidationResponse
has accepted = false, then Plugin.Validate returns a Rejected (forbidden)
decision attributing policy k by name and message, and no policy after k
is invoked. -/
theorem validate_first_rejection
    (env : ReqEnv) (plugin : Plugin) (pre post : List PolicyRun) (p : PolicyRun)
    (hgather : gatherRelevant env plugin.policies [] = Except.ok (pre ++ p :: post))
    (hpre : ∀ q ∈ pre, policyAccepts q)
    (hobj : p.createObjects = Except.ok ())
    (payload : String) (hser : p.serialize = Except.ok payload)
    (vr : ValidationResponse) (hvr : policyValidate p payload = Except.ok vr)
    (hrej : vr.Accepted = false) :
    plugin.Validate env =
      (Decision.forbidden ("Kubewarden policy " ++ p.name ++ " rejection: " ++ vr.Message),
       pre.map PolicyRun.name ++ [p.name],
       [{ apiVersion := p.objApiVersion, kind := p.objKind,
          reason := "ValidationRejection", message := p.name ++ ": " ++ vr.Message }]) :=
  validateFirstRejectionAux env plugin pre post p hgather hpre hobj payload hser vr hvr hrej

theorem validate_first_rejection_witness :
    Plugin.Validate ⟨[wAccept, wReject, wTail]⟩ wReqEnv =
      (Decision.forbidden "Kubewarden policy p2 rejection: denied",
       ["p1", "p2"],
       [{ apiVersion := "/v1", kind := "Pod",
          reason := "ValidationRejection", message := "p2: denied" }]) :=
  validate_first_rejection wReqEnv ⟨[wAccept, wReject, wTail]⟩ [wAccept] [wTail] wReject
    rfl
    (by
      intro q hq
      simp only [List.mem_singleton] at hq
      subst hq
      exact ⟨rfl, "req", rfl, ⟨true, "", 0, ""⟩, rfl, rfl⟩)
    rfl "req" rfl ⟨false, "denied", 0, ""⟩ rfl rfl

/-- C2 counterexample: a matched monitor-mode policy whose decoded
response has accepted = false does not leave the final decision Allowed —
the aggregator returns a forbidden decision (Plugin.Validate never reads
Spec.Mode). -/
theorem monitor_rejection_counterexample :
    wMon.mode = PolicyMode.monitor ∧
    (Plugin.Validate ⟨[wMon]⟩ wReqEnv).1 =
      Decision.forbidden "Kubewarden policy mon rejection: denied" ∧
    (Plugin.Validate ⟨[wMon]⟩ wReqEnv).1 ≠ Decision.allowed :=
  ⟨rfl, rfl, by decide⟩

/-- C2 (amended): for every matched policy whose Spec.Mode is monitor and
whose decoded ValidationResponse has accepted = false, Plugin.Validate
returns a Rejected (forbidden) decision exactly as in protect mode — the
mode does not alter the final decision; the rejection is additionally
recorded as a ValidationRejection event. -/
theorem monitor_rejection_not_downgraded
    (env : ReqEnv) (plugin : Plugin) (pre post : List PolicyRun) (p : PolicyRun)
    (hmode : p.mode = PolicyMode.monitor)
    (hgather : gatherRelevant env plugin.policies [] = Except.ok (pre ++ p :: post))
    (hpre : ∀ q ∈ pre, policyAccepts q)
    (hobj : p.createObjects = Except.ok ())
    (payload : String) (hser : p.serialize = Except.ok payload)
    (vr : ValidationResponse) (hvr : policyValidate p payload = Except.ok vr)
    (hrej : vr.Accepted = false) :
    plugin.Validate env =
      (Decision.forbidden ("Kubewarden policy " ++ p.name ++ " rejection: " ++ vr.Message),
       pre.map PolicyRun.name ++ [p.name],
       [{ apiVersion := p.objApiVersion, kind := p.objKind,
          reason := "ValidationRejection", message := p.name ++ ": " ++ vr.Message }]) :=
  validateFirstRejectionAux env plugin pre post p hgather hpre hobj payload hser vr hvr hrej

theorem monitor_rejection_not_downgraded_witness :
    wMon.mode = PolicyMode.monitor ∧
    Plugin.Validate ⟨[wMon]⟩ wReqEnv =
      (Decision.forbidden "Kubewarden policy mon rejection: denied",
       ["mon"],
       [{ apiVersion := "/v1", kind := "Pod",
          reason := "ValidationRejection", message := "mon: denied" }]) :=
  ⟨rfl,
   monitor_rejection_not_downgraded wReqEnv ⟨[wMon]⟩ [] [] wMon rfl rfl
     (by intro q hq; cases hq)
     rfl "req" rfl ⟨false, "denied", 0, ""⟩ rfl rfl⟩

/-- C3: if a matched policy's invocation returns an error (sandbox fault —
including a response that fails to decode) or serializing its
ValidationRequest fails, Plugin.Validate aborts the whole request with a
Rejected (forbidden) decision; it never returns Allowed after such an
error and never invokes any later matched policy. -/
theorem invocation_error_aborts
    (env : ReqEnv) (plugin : Plugin) (pre post : List PolicyRun) (p : PolicyRun)
    (hgather : gatherRelevant env plugin.policies [] = Except.ok (pre ++ p :: post))
    (hpre : ∀ q ∈ pre, policyAccepts q)
    (hobj : p.createObjects = Except.ok ())
    (hfail : (∃ e, p.serialize = Except.error e) ∨
      (∃ payload e, p.serialize = Except.ok payload ∧
        policyValidate p payload = Except.error e)) :
    (∃ msg, (plugin.Validate env).1 = Decision.forbidden msg) ∧
    (plugin.Validate env).1 ≠ Decision.allowed ∧
    ∃ t, (plugin.Validate env).2.1 = pre.map PolicyRun.name ++ t ∧
      (t = [] ∨ t = [p.name]) := by
  rcases hfail with ⟨e, he⟩ | ⟨payload, e, hp1, hp2⟩
  · have heq : plugin.Validate env =
        (Decision.forbidden ("Cannot serialize kubewarden ValidationRequest: " ++ e),
         pre.map PolicyRun.name, []) := by
      simp only [Plugin.Validate, hgather]
      rw [evalRelevant_accept_append pre (p :: post) hpre]
      simp only [evalRelevant, hobj, he]
      simp
    rw [heq]
    exact ⟨⟨_, rfl⟩, by simp, ⟨[], by simp⟩⟩
  · have heq : plugin.Validate env =
        (Decision.forbidden ("Error evaluating Wasm policy " ++ p.name ++ ": " ++ e),
         pre.map PolicyRun.name ++ [p.name], []) := by
      simp only [Plugin.Validate, hgather]
      rw [evalRelevant_accept_append pre (p :: post) hpre]
      simp only [evalRelevant, hobj, hp1, hp2]
    rw [heq]
    exact ⟨⟨_, rfl⟩, by simp, ⟨[p.name], by simp⟩⟩

theorem invocation_error_aborts_witness :
    (∃ msg, (Plugin.Validate ⟨[wAccept, wErr, wTail]⟩ wReqEnv).1 = Decision.forbidden msg) ∧
    (Plugin.Validate ⟨[wAccept, wErr, wTail]⟩ wReqEnv).1 ≠ Decision.allowed ∧
    ∃ t, (Plugin.Validate ⟨[wAccept, wErr, wTail]⟩ wReqEnv).2.1 = ["p1"] ++ t ∧
      (t = [] ∨ t = ["err"]) :=
  invocation_error_aborts wReqEnv ⟨[wAccept, wErr, wTail]⟩ [wAccept] [wTail] wErr
    rfl
    (by
      intro q hq
      simp only [List.mem_singleton] at hq
      subst hq
      exact ⟨rfl, "req", rfl, ⟨true, "", 0, ""⟩, rfl, rfl⟩)
    rfl
    (Or.inr ⟨"req", "[policy err] - cannot decode validation response: trap", rfl, rfl⟩)

/-- C5: for every request that matches zero registered policies,
Plugin.Validate returns Allowed, invokes no policy module and emits no
event. -/
theorem no_match_allowed (env : ReqEnv) (plugin : Plugin)
    (h : ∀ q ∈ plugin.policies, q.hookCheck = HookCheck.noMatch) :
    plugin.Validate env = (Decision.allowed, [], []) := by
  simp only [Plugin.Validate, gatherRelevant_noMatch env plugin.policies h []]
  rfl

def wNoMatch1 : PolicyRun :=
  { wPolicy "n1" wRejectJson PolicyMode.protect with hookCheck := HookCheck.noMatch }

def wNoMatch2 : PolicyRun :=
  { wPolicy "n2" wRejectJson PolicyMode.protect with hookCheck := HookCheck.noMatch }

theorem no_match_allowed_witness :
    Plugin.Validate ⟨[wNoMatch1, wNoMatch2]⟩ wReqEnv = (Decision.allowed, [], []) :=
  no_match_allowed wReqEnv ⟨[wNoMatch1, wNoMatch2]⟩
    (by
      intro q hq
      simp only [List.mem_cons, List.not_mem_nil, or_false] at hq
      rcases hq with h | h <;> subst h <;> rfl)

theorem vInit_fold (ps : List PolicyRun) :
    ∀ acc : List String × List String,
      (ps.foldl vInitStep acc).1.length = acc.1.length + ps.countP settingsFailure ∧
      (ps.foldl vInitStep acc).2 = acc.2 ++ ps.map PolicyRun.name := by
  induction ps with
  | nil => intro acc; simp
  | cons q ps ih =>
    intro acc
    have h := ih (vInitStep acc q)
    constructor
    · rw [List.foldl_cons, h.1, List.countP_cons]
      have hstep : (vInitStep acc q).1.length =
          acc.1.length + (if settingsFailure q then 1 else 0) := by
        cases hpv : policyValidateSettings q with
        | error e => simp [vInitStep, settingsFailure, hpv]
        | ok vsr =>
          by_cases hv : vsr.Valid <;> simp [vInitStep, settingsFailure, hpv, hv]
      rw [hstep]
      by_cases hf : settingsFailure q <;> simp [hf] <;> omega
    · rw [List.foldl_cons, h.2]
      have hstep : (vInitStep acc q).2 = acc.2 ++ [q.name] := rfl
      rw [hstep]
      simp

/-- C8: ValidateInitialization invokes each registered policy's
settings-validation exactly once (the validation trace lists every
registered policy once, in order), evaluating every policy even after a
failure, and returns an error iff at least one policy's validation errored
or returned valid = false. -/
theorem validateInitialization_spec (plugin : Plugin) :
    plugin.ValidateInitialization.2 = plugin.policies.map PolicyRun.name ∧
    (plugin.ValidateInitialization.1.isSome ↔
      ∃ q ∈ plugin.policies, settingsFailure q = true) := by
  have h := vInit_fold plugin.policies ([], [])
  have hlen : (plugin.policies.foldl vInitStep ([], [])).1.length =
      plugin.policies.countP settingsFailure := by
    have := h.1
    simpa using this
  constructor
  · simp only [Plugin.ValidateInitialization]
    simpa using h.2
  · simp only [Plugin.ValidateInitialization]
    by_cases hpos : 0 < plugin.policies.countP settingsFailure
    · have hpos2 : 0 < (plugin.policies.foldl vInitStep ([], [])).1.length := by
        rw [hlen]; exact hpos
      simp only [gt_iff_lt, hpos2, if_true, Option.isSome_some, true_iff]
      exact List.countP_pos_iff.mp hpos
    · have hpos2 : ¬ 0 < (plugin.policies.foldl vInitStep ([], [])).1.length := by
        rw [hlen]; exact hpos
      simp only [gt_iff_lt, hpos2, if_false, Option.isSome_none,
        Bool.false_eq_true, false_iff]
      exact fun hex => hpos (List.countP_pos_iff.mpr hex)

/-- C9 (amended): within one plugin instance, Plugin.Validate evaluates
matched policies in the order of the plugin's policies slice — the
invocation sequence is always a prefix of the matched policies' names in
slice order. -/
theorem validate_order_follows_slice (env : ReqEnv) (plugin : Plugin) :
    ∃ t, (plugin.policies.filter hookMatchesB).map PolicyRun.name =
      (plugin.Validate env).2.1 ++ t := by
  simp only [Plugin.Validate]
  cases hg : gatherRelevant env plugin.policies [] with
  | error d =>
    exact ⟨(plugin.policies.filter hookMatchesB).map PolicyRun.name, by simp⟩
  | ok rel =>
    rw [← gatherRelevant_ok_filter env plugin.policies [] rel hg]
    simpa using evalRelevant_trace_prefix rel

def wMkPolicy (nm : String) (_ : Nat) : Except String PolicyRun :=
  Except.ok (wPolicy nm wAcceptJson PolicyMode.protect)

def wCfg1 : List (String × Nat) := [("a", 0), ("b", 0)]

def wCfg2 : List (String × Nat) := [("b", 0), ("a", 0)]

/-- C9 counterexample: `newPlugin` builds the policies slice by ranging
over the configuration map, whose iteration order Go leaves unspecified.
Two permutations of the same map entries — both legal range orders of the
same configuration document — produce plugins that evaluate the same
request's policies in different sequences. -/
theorem insertion_order_counterexample :
    wCfg1.Perm wCfg2 ∧
    newPluginPolicies wMkPolicy wCfg1 =
      Except.ok [wPolicy "a" wAcceptJson PolicyMode.protect,
                 wPolicy "b" wAcceptJson PolicyMode.protect] ∧
    newPluginPolicies wMkPolicy wCfg2 =
      Except.ok [wPolicy "b" wAcceptJson PolicyMode.protect,
                 wPolicy "a" wAcceptJson PolicyMode.protect] ∧
    (Plugin.Validate ⟨[wPolicy "a" wAcceptJson PolicyMode.protect,
                       wPolicy "b" wAcceptJson PolicyMode.protect]⟩ wReqEnv).2.1 = ["a", "b"] ∧
    (Plugin.Validate ⟨[wPolicy "b" wAcceptJson PolicyMode.protect,
                       wPolicy "a" wAcceptJson PolicyMode.protect]⟩ wReqEnv).2.1 = ["b", "a"] ∧
    (["a", "b"] : List String) ≠ ["b", "a"] :=
  ⟨List.Perm.swap ("b", 0) ("a", 0) [], rfl, rfl, rfl, rfl, by decide⟩

/-- The byte strings `NewValidationResponse` accepts, stated
declaratively: the input parses as JSON `null` or as a JSON object whose
members all satisfy `vrMemberOk`. -/
def vrParseShapeOk (s : String) : Bool :=
  match jsonParse s with
  | some j => vrShapeOk j
  | none => false

theorem setVRField_isSome (vr : ValidationResponse) (k : String) (v : Json) :
    (setVRField vr k v).isSome = vrMemberOk (k, v) := by
  unfold setVRField vrMemberOk
  cases v <;> simp [apply_ite Option.isSome]

theorem unmarshalVRMembers_isSome (ms : List (String × Json)) :
    ∀ vr0 : ValidationResponse,
      (unmarshalVRMembers vr0 ms).isSome = ms.all vrMemberOk := by
  induction ms with
  | nil => intro vr0; rfl
  | cons kv ms ih =>
    intro vr0
    obtain ⟨k, v⟩ := kv
    simp only [unmarshalVRMembers, List.all_cons]
    have hfield := setVRField_isSome vr0 k v
    cases hsf : setVRField vr0 k v with
    | none =>
      rw [hsf] at hfield
      simp [← hfield]
    | some vr2 =>
      rw [hsf] at hfield
      simp [← hfield, ih vr2]

theorem except_isOk_ok {e a : Type} (x : a) : (Except.ok x : Except e a).isOk = true := rfl

theorem except_isOk_error {e a : Type} (x : e) :
    (Except.error x : Except e a).isOk = false := rfl

theorem unmarshalVR_isOk (j : Json) : (unmarshalVR j).isOk = vrShapeOk j := by
  cases j with
  | null => rfl
  | bool b => rfl
  | num n => rfl
  | str s => rfl
  | arr l => rfl
  | obj ms =>
    have h := unmarshalVRMembers_isSome ms zeroVR
    cases hm : unmarshalVRMembers zeroVR ms with
    | none =>
      rw [hm] at h
      simp [unmarshalVR, vrShapeOk, hm, ← h, except_isOk_error]
    | some vr =>
      rw [hm] at h
      simp [unmarshalVR, vrShapeOk, hm, ← h, except_isOk_ok]

/-- C4 counterexample: the byte string for the empty JSON object parses as
a JSON object with no members — so with no boolean `accepted` — yet
`NewValidationResponse` succeeds (with `Accepted = false`), refuting
"succeeds only for ... containing at minimum a boolean accepted". -/
theorem vr_decode_counterexample :
    jsonParse "\x7b\x7d" = some (Json.obj []) ∧
    NewValidationResponse "\x7b\x7d" = Except.ok zeroVR :=
  ⟨rfl, rfl⟩

/-- C4 (amended): NewValidationResponse succeeds exactly on byte strings
that parse as JSON null or as a JSON object whose recognized fields, when
present, have the field's type — a boolean `accepted` is not required
(when missing, Accepted defaults to false); every other byte string
yields an error, which Plugin.Validate surfaces as an invocation error
("Error evaluating Wasm policy ...", with no rejection event),
distinguishable from a policy-declared rejection. -/
theorem vr_decode_characterization :
    (∀ s, (NewValidationResponse s).isOk = vrParseShapeOk s) ∧
    (∀ (env : ReqEnv) (plugin : Plugin) (pre post : List PolicyRun) (p : PolicyRun)
       (payload raw : String),
      gatherRelevant env plugin.policies [] = Except.ok (pre ++ p :: post) →
      (∀ q ∈ pre, policyAccepts q) →
      p.createObjects = Except.ok () →
      p.serialize = Except.ok payload →
      p.invoke payload = Except.ok raw →
      (NewValidationResponse raw).isOk = false →
      ∃ e, plugin.Validate env =
        (Decision.forbidden ("Error evaluating Wasm policy " ++ p.name ++ ": " ++ e),
         pre.map PolicyRun.name ++ [p.name], [])) := by
  constructor
  · intro s
    cases hp : jsonParse s with
    | none => simp [NewValidationResponse, vrParseShapeOk, hp, except_isOk_error]
    | some j => simp [NewValidationResponse, vrParseShapeOk, hp, unmarshalVR_isOk j]
  · intro env plugin pre post p payload raw hg hpre hobj hser hi hbad
    have hde : ∃ e, NewValidationResponse raw = Except.error e := by
      cases hd : NewValidationResponse raw with
      | error e => exact ⟨e, rfl⟩
      | ok vr => rw [hd] at hbad; cases hbad
    obtain ⟨e, hde⟩ := hde
    have hpv : policyValidate p payload = Except.error e := by
      simp [policyValidate, hi, hde]
    refine ⟨e, ?_⟩
    simp only [Plugin.Validate, hg]
    rw [evalRelevant_accept_append pre (p :: post) hpre]
    simp only [evalRelevant, hobj, hser, hpv]

def wBadResp : PolicyRun := wPolicy "bad" "true" PolicyMode.protect

theorem vr_decode_characterization_witness :
    (NewValidationResponse "true").isOk = vrParseShapeOk "true" ∧
    ∃ e, Plugin.Validate ⟨[wBadResp]⟩ wReqEnv =
      (Decision.forbidden ("Error evaluating Wasm policy bad: " ++ e), ["bad"], []) :=
  ⟨vr_decode_characterization.1 "true",
   vr_decode_characterization.2 wReqEnv ⟨[wBadResp]⟩ [] [] wBadResp "req" "true"
     rfl (by intro q hq; cases hq) rfl rfl rfl rfl⟩

theorem setVRField_preserves_Accepted (vr vr2 : ValidationResponse) (k : String)
    (v : Json) (hk : lowerKey k ≠ "accepted") (h : setVRField vr k v = some vr2) :
    vr2.Accepted = vr.Accepted := by
  delta setVRField at h
  rw [if_neg hk] at h
  split at h
  · cases v <;> first | (cases h; rfl) | cases h
  · split at h
    · cases v <;> first | (cases h; rfl) | cases h
    · split at h
      · cases v <;> first | (cases h; rfl) | cases h
      · cases h; rfl

theorem unmarshalVRMembers_no_accepted (ms : List (String × Json)) :
    ∀ vr0 vrf : ValidationResponse,
      (∀ kv ∈ ms, lowerKey kv.1 ≠ "accepted") →
      unmarshalVRMembers vr0 ms = some vrf → vrf.Accepted = vr0.Accepted := by
  induction ms with
  | nil =>
    intro vr0 vrf _ hm
    cases hm
    rfl
  | cons kv ms ih =>
    intro vr0 vrf h hm
    obtain ⟨k, v⟩ := kv
    simp only [unmarshalVRMembers] at hm
    cases hsf : setVRField vr0 k v with
    | none => rw [hsf] at hm; cases hm
    | some vr2 =>
      rw [hsf] at hm
      have h1 := setVRField_preserves_Accepted vr0 vr2 k v (h (k, v) (by simp)) hsf
      have h2 := ih vr2 vrf (fun kv hkv => h kv (by simp [hkv])) hm
      rw [h2, h1]

/-- C10 counterexample: a byte string that parses as a JSON object
omitting `accepted`, on which NewValidationResponse nevertheless errors
(the `message` member is ill-typed) — refuting "for every byte string
that parses as a JSON object but omits the accepted field". -/
theorem missing_accepted_counterexample :
    jsonParse "\x7b\x22message\x22:5\x7d" =
      some (Json.obj [("message", Json.num 5)]) ∧
    (NewValidationResponse "\x7b\x22message\x22:5\x7d").isOk = false :=
  ⟨rfl, rfl⟩

/-- C10 (amended): for every byte string that parses as a JSON object
omitting the `accepted` field and whose other recognized fields are
well-typed (for example the empty object), NewValidationResponse returns
no error and a ValidationResponse with Accepted = false, so
Plugin.Validate treats such a response as a policy rejection
(fail-closed), not as an invocation error. -/
theorem missing_accepted_fail_closed
    (s : String) (ms : List (String × Json))
    (hparse : jsonParse s = some (Json.obj ms))
    (hnoacc : ∀ kv ∈ ms, lowerKey kv.1 ≠ "accepted")
    (hok : ms.all vrMemberOk = true) :
    ∃ vr, NewValidationResponse s = Except.ok vr ∧ vr.Accepted = false ∧
      ∀ (env : ReqEnv) (plugin : Plugin) (pre post : List PolicyRun) (p : PolicyRun)
        (payload : String),
        gatherRelevant env plugin.policies [] = Except.ok (pre ++ p :: post) →
        (∀ q ∈ pre, policyAccepts q) →
        p.createObjects = Except.ok () →
        p.serialize = Except.ok payload →
        p.invoke payload = Except.ok s →
        plugin.Validate env =
          (Decision.forbidden ("Kubewarden policy " ++ p.name ++ " rejection: " ++ vr.Message),
           pre.map PolicyRun.name ++ [p.name],
           [{ apiVersion := p.objApiVersion, kind := p.objKind,
              reason := "ValidationRejection",
              message := p.name ++ ": " ++ vr.Message }]) := by
  have hms := unmarshalVRMembers_isSome ms zeroVR
  rw [hok] at hms
  obtain ⟨vr, hvr⟩ := Option.isSome_iff_exists.mp hms
  have hacc : vr.Accepted = false := unmarshalVRMembers_no_accepted ms zeroVR vr hnoacc hvr
  have hdec : NewValidationResponse s = Except.ok vr := by
    simp [NewValidationResponse, hparse, unmarshalVR, hvr]
  refine ⟨vr, hdec, hacc, ?_⟩
  intro env plugin pre post p payload hg hpre hobj hser hi
  have hpv : policyValidate p payload = Except.ok vr := by
    simp [policyValidate, hi, hdec]
  exact validateFirstRejectionAux env plugin pre post p hg hpre hobj payload hser vr hpv hacc

theorem missing_accepted_fail_closed_witness :
    ∃ vr, NewValidationResponse "\x7b\x7d" = Except.ok vr ∧ vr.Accepted = false :=
  (missing_accepted_fail_closed "\x7b\x7d" [] rfl (by intro kv hkv; cases hkv) rfl).imp
    (fun vr h => ⟨h.1, h.2.1⟩)

theorem download_cache_hit (env : DownloadEnv) (ref destDir : String)
    (fs : List (String × String))
    (hl : (fs.lookup (buildDownloadDestination ref destDir)).isSome = true) :
    DownloadWasmFromRegistry env ref destDir fs =
      (Except.ok (buildDownloadDestination ref destDir), fs, false) := by
  simp only [DownloadWasmFromRegistry, hl, if_true]

theorem download_ok_on_disk (env : DownloadEnv) (ref destDir : String)
    (fs fs1 : List (String × String)) (res : String) (net : Bool)
    (h : DownloadWasmFromRegistry env ref destDir fs = (Except.ok res, fs1, net)) :
    res = buildDownloadDestination ref destDir ∧
    (fs1.lookup (buildDownloadDestination ref destDir)).isSome = true := by
  by_cases hl : (fs.lookup (buildDownloadDestination ref destDir)).isSome = true
  · rw [download_cache_hit env ref destDir fs hl] at h
    simp only [Prod.mk.injEq] at h
    obtain ⟨h1, h2, h3⟩ := h
    cases h1
    exact ⟨rfl, h2 ▸ hl⟩
  · cases hr : env.newRegistry with
    | error e =>
      rw [(by simp [DownloadWasmFromRegistry, hl, hr] :
        DownloadWasmFromRegistry env ref destDir fs = (Except.error e, fs, false))] at h
      simp only [Prod.mk.injEq] at h
      cases h.1
    | ok u =>
      cases hc : env.copy ref with
      | error e =>
        rw [(by simp [DownloadWasmFromRegistry, hl, hr, hc] :
          DownloadWasmFromRegistry env ref destDir fs = (Except.error e, fs, true))] at h
        simp only [Prod.mk.injEq] at h
        cases h.1
      | ok desc =>
        cases hg : env.storeGet desc with
        | none =>
          rw [(by simp [DownloadWasmFromRegistry, hl, hr, hc, hg] :
            DownloadWasmFromRegistry env ref destDir fs =
              (Except.error "Cannot fetch manifest", fs, true))] at h
          simp only [Prod.mk.injEq] at h
          cases h.1
        | some content =>
          cases hm : env.parseManifest content with
          | error e =>
            rw [(by simp [DownloadWasmFromRegistry, hl, hr, hc, hg, hm] :
              DownloadWasmFromRegistry env ref destDir fs = (Except.error e, fs, true))] at h
            simp only [Prod.mk.injEq] at h
            cases h.1
          | ok manifest =>
            by_cases hlen : manifest.layers.length = 1
            · cases hgn : env.getByName (manifest.layers.head?.getD "") with
              | none =>
                rw [(by simp [DownloadWasmFromRegistry, hl, hr, hc, hg, hm, hlen, hgn] :
                  DownloadWasmFromRegistry env ref destDir fs =
                    (Except.error "Cannot find Wasm layer data", fs, true))] at h
                simp only [Prod.mk.injEq] at h
                cases h.1
              | some lc =>
                cases hmk : env.mkdirAll
                    (filepathSplitDir (buildDownloadDestination ref destDir)) with
                | error e =>
                  rw [(by simp [DownloadWasmFromRegistry, hl, hr, hc, hg, hm, hlen,
                      hgn, hmk] :
                    DownloadWasmFromRegistry env ref destDir fs =
                      (Except.error e, fs, true))] at h
                  simp only [Prod.mk.injEq] at h
                  cases h.1
                | ok u2 =>
                  cases hw : env.writeFile (buildDownloadDestination ref destDir) lc with
                  | error e =>
                    rw [(by simp [DownloadWasmFromRegistry, hl, hr, hc, hg, hm, hlen,
                        hgn, hmk, hw] :
                      DownloadWasmFromRegistry env ref destDir fs =
                        (Except.error e, fs, true))] at h
                    simp only [Prod.mk.injEq] at h
                    cases h.1
                  | ok u3 =>
                    rw [(by simp [DownloadWasmFromRegistry, hl, hr, hc, hg, hm, hlen,
                        hgn, hmk, hw] :
                      DownloadWasmFromRegistry env ref destDir fs =
                        (Except.ok (buildDownloadDestination ref destDir),
                         (buildDownloadDestination ref destDir, lc) :: fs, true))] at h
                    simp only [Prod.mk.injEq] at h
                    obtain ⟨h1, h2, h3⟩ := h
                    cases h1
                    refine ⟨rfl, ?_⟩
                    rw [← h2]
                    simp
            · rw [(by simp [DownloadWasmFromRegistry, hl, hr, hc, hg, hm, hlen] :
                DownloadWasmFromRegistry env ref destDir fs =
                  (Except.error
                     ("OCI artifact is expected to have just one layer, found "
                       ++ toString manifest.layers.length ++ " layers instead"),
                   fs, true))] at h
              simp only [Prod.mk.injEq] at h
              cases h.1

/-- C6: the local destination is the deterministic function
`filepathJoin destDir (replaceAllChar ref / + ".wasm")`
(`buildDownloadDestination`); a successful fetch always returns that path,
a second fetch of the same (ref, destDir) returns the same path — under
any registry state, so without registry access (the network flag is
false) — and leaves the filesystem untouched. -/
theorem download_deterministic_cached
    (env1 env2 : DownloadEnv) (ref destDir : String)
    (fs fs1 : List (String × String)) (res : String) (net : Bool)
    (h : DownloadWasmFromRegistry env1 ref destDir fs = (Except.ok res, fs1, net)) :
    res = buildDownloadDestination ref destDir ∧
    DownloadWasmFromRegistry env2 ref destDir fs1 = (Except.ok res, fs1, false) := by
  obtain ⟨h1, h2⟩ := download_ok_on_disk env1 ref destDir fs fs1 res net h
  subst h1
  exact ⟨rfl, download_cache_hit env2 ref destDir fs1 h2⟩

/-- A registry environment serving a single-layer artifact. -/
def wDlEnv : DownloadEnv :=
  { newRegistry := Except.ok ()
    copy := fun _ => Except.ok "desc1"
    storeGet := fun d => if d = "desc1" then some "manifest-bytes" else none
    parseManifest := fun c =>
      if c = "manifest-bytes" then Except.ok ⟨["sha256:abc"]⟩
      else Except.error "bad manifest"
    getByName := fun d => if d = "sha256:abc" then some "WASMBYTES" else none
    mkdirAll := fun _ => Except.ok ()
    writeFile := fun _ _ => Except.ok () }

/-- A registry environment in which any network interaction fails. -/
def wDlEnvDead : DownloadEnv :=
  { wDlEnv with
    newRegistry := Except.error "no registry"
    copy := fun _ => Except.error "network down" }

theorem download_deterministic_cached_witness :
    DownloadWasmFromRegistry wDlEnv "reg.io/p:v1" "/cache" [] =
      (Except.ok "/cache/reg.io/p:v1.wasm",
       [("/cache/reg.io/p:v1.wasm", "WASMBYTES")], true) ∧
    ("/cache/reg.io/p:v1.wasm" = buildDownloadDestination "reg.io/p:v1" "/cache" ∧
     DownloadWasmFromRegistry wDlEnvDead "reg.io/p:v1" "/cache"
         [("/cache/reg.io/p:v1.wasm", "WASMBYTES")] =
       (Except.ok "/cache/reg.io/p:v1.wasm",
        [("/cache/reg.io/p:v1.wasm", "WASMBYTES")], false)) :=
  ⟨rfl,
   download_deterministic_cached wDlEnv wDlEnvDead "reg.io/p:v1" "/cache" []
     [("/cache/reg.io/p:v1.wasm", "WASMBYTES")] "/cache/reg.io/p:v1.wasm" true rfl⟩

/-- C7: a fetched manifest whose layer count is not exactly 1 makes
DownloadWasmFromRegistry return an error with the filesystem unchanged;
and in general the destination file is written only on the success path,
after the single-layer check passed and the layer's bytes were
retrieved. -/
theorem multi_layer_manifest_rejected
    (env : DownloadEnv) (ref destDir : String) (fs : List (String × String))
    (desc content : String) (manifest : Manifest)
    (hmiss : fs.lookup (buildDownloadDestination ref destDir) = none)
    (hreg : env.newRegistry = Except.ok ())
    (hcopy : env.copy ref = Except.ok desc)
    (hget : env.storeGet desc = some content)
    (hman : env.parseManifest content = Except.ok manifest)
    (hlen : manifest.layers.length ≠ 1) :
    DownloadWasmFromRegistry env ref destDir fs =
      (Except.error ("OCI artifact is expected to have just one layer, found "
         ++ toString manifest.layers.length ++ " layers instead"), fs, true) ∧
    ∀ (env2 : DownloadEnv) (ref2 destDir2 : String) (fs2 : List (String × String)),
      (DownloadWasmFromRegistry env2 ref2 destDir2 fs2).2.1 ≠ fs2 →
      ∃ d c m lc,
        env2.copy ref2 = Except.ok d ∧ env2.storeGet d = some c ∧
        env2.parseManifest c = Except.ok m ∧ m.layers.length = 1 ∧
        env2.getByName (m.layers.headD "") = some lc ∧
        (DownloadWasmFromRegistry env2 ref2 destDir2 fs2).2.1 =
          (buildDownloadDestination ref2 destDir2, lc) :: fs2 := by
  constructor
  · have hl : (fs.lookup (buildDownloadDestination ref destDir)).isSome = false := by
      simp [hmiss]
    simp only [DownloadWasmFromRegistry, hl, Bool.false_eq_true, if_false,
      hreg, hcopy, hget, hman, ne_eq, hlen, not_false_eq_true, if_true]
  · intro env2 ref2 destDir2 fs2 hneq
    by_cases hl : (fs2.lookup (buildDownloadDestination ref2 destDir2)).isSome = true
    · exact absurd (by simp [DownloadWasmFromRegistry, hl]) hneq
    · cases hr : env2.newRegistry with
      | error e => exact absurd (by simp [DownloadWasmFromRegistry, hl, hr]) hneq
      | ok u =>
        cases hc : env2.copy ref2 with
        | error e => exact absurd (by simp [DownloadWasmFromRegistry, hl, hr, hc]) hneq
        | ok d =>
          cases hg : env2.storeGet d with
          | none => exact absurd (by simp [DownloadWasmFromRegistry, hl, hr, hc, hg]) hneq
          | some c =>
            cases hm : env2.parseManifest c with
            | error e =>
              exact absurd (by simp [DownloadWasmFromRegistry, hl, hr, hc, hg, hm]) hneq
            | ok m =>
              by_cases hlen2 : m.layers.length = 1
              · cases hgn : env2.getByName (m.layers.head?.getD "") with
                | none =>
                  exact absurd
                    (by simp [DownloadWasmFromRegistry, hl, hr, hc, hg, hm, hlen2, hgn]) hneq
                | some lc =>
                  cases hmk : env2.mkdirAll
                      (filepathSplitDir (buildDownloadDestination ref2 destDir2)) with
                  | error e =>
                    exact absurd
                      (by simp [DownloadWasmFromRegistry, hl, hr, hc, hg, hm, hlen2,
                        hgn, hmk]) hneq
                  | ok u2 =>
                    cases hw : env2.writeFile (buildDownloadDestination ref2 destDir2) lc with
                    | error e =>
                      exact absurd
                        (by simp [DownloadWasmFromRegistry, hl, hr, hc, hg, hm, hlen2,
                          hgn, hmk, hw]) hneq
                    | ok u3 =>
                      refine ⟨d, c, m, lc, rfl, hg, hm, hlen2, ?_, ?_⟩
                      · rw [List.headD_eq_head?]
                        exact hgn
                      · simp [DownloadWasmFromRegistry, hl, hr, hc, hg, hm, hlen2,
                          hgn, hmk, hw]
              · exact absurd
                  (by simp [DownloadWasmFromRegistry, hl, hr, hc, hg, hm, hlen2]) hneq

/-- An environment serving a two-layer artifact. -/
def wDlEnvTwoLayers : DownloadEnv :=
  { wDlEnv with
    parseManifest := fun c =>
      if c = "manifest-bytes" then Except.ok ⟨["l1", "l2"]⟩
      else Except.error "bad manifest" }

theorem multi_layer_manifest_rejected_witness :
    DownloadWasmFromRegistry wDlEnvTwoLayers "reg.io/p:v1" "/cache" [] =
      (Except.error
         "OCI artifact is expected to have just one layer, found 2 layers instead",
       [], true) :=
  (multi_layer_manifest_rejected wDlEnvTwoLayers "reg.io/p:v1" "/cache" []
    "desc1" "manifest-bytes" ⟨["l1", "l2"]⟩ rfl rfl rfl rfl rfl (by decide)).1

end Kubewarden
